import Mathlib

/-!
Shallow embedding of get-image-glsl (src/main.cpp) and proofs about its
specified behaviour.  Pure helpers of the program become Lean functions;
the OpenGL backend, the file system and the JSON parser are modelled as
explicit environments; process termination is modelled by returning the
exit code; observable side effects (shader compilation, diagnostic logs,
description-file reads, draw calls, PNG capture) are recorded in an event
trace.
-/

namespace GIG

/-- Run parameters, mirroring `struct Params` as used by `main.cpp`
(`defaultParams`, `setParams`).  Numeric fields parsed by `atoi` are
modelled as `Int`, matching the C `int` fields. -/
structure Params where
  width : Int
  height : Int
  shaderVersion : Nat
  fragFilename : String
  vertFilename : String
  output : String
  exitCompile : Bool
  exitLinking : Bool
  persist : Bool
  delay : Int
  binOut : String
deriving DecidableEq, Repr

/-- Mirrors `defaultParams` in `main.cpp`. -/
def defaultParams : Params :=
  { width := 256, height := 256, shaderVersion := 0,
    fragFilename := "", vertFilename := "", output := "output.png",
    exitCompile := false, exitLinking := false, persist := false,
    delay := 5, binOut := "" }

/-- Numeric value of a digit run, accumulating in base 10. -/
def digitsValue (cs : List Char) : Nat :=
  cs.foldl (fun a c => 10 * a + (c.toNat - 48)) 0

/-- Models the C library function `atoi`: skip leading whitespace, read an
optional sign, then the value of the longest leading digit run (0 if
none).  No claim depends on the exact numeric value returned. -/
def atoi (s : String) : Int :=
  let cs := s.toList.dropWhile
    (fun c => c == ' ' || c == '\t' || c == '\n' || c == '\r')
  match cs with
  | '-' :: rest => - Int.ofNat (digitsValue (rest.takeWhile Char.isDigit))
  | '+' :: rest => Int.ofNat (digitsValue (rest.takeWhile Char.isDigit))
  | _ => Int.ofNat (digitsValue (cs.takeWhile Char.isDigit))

/-- The reason `setParams` aborts the process (argument of `crash`). -/
inductive CrashKind where
  | missingValue (opt : String)
  | invalidOption (arg : String)
  | extraArg (arg : String) (accepted : String)
  | missingShader
deriving DecidableEq, Repr

/-- A fatal termination of argument parsing: whether the usage text was
printed first, the process exit code (`crash` exits with the generic
error code 1, modelled from the spec since `common.h` is not under
`src/`), and the reason. -/
structure CrashInfo where
  usageShown : Bool
  exitCode : Nat
  kind : CrashKind
deriving DecidableEq, Repr

/-- How the scanning loop of `setParams` treats one argument string. -/
inductive ArgClass where
  | optExitCompile
  | optExitLinking
  | optPersist
  | optDelay
  | optOutput
  | optResolution
  | optVertex
  | optDumpBin
  | optUnknown
  | positional
deriving DecidableEq, Repr

/-- The branch conditions of the scanning loop of `setParams` (`main.cpp`
lines 93-119), factored into a classifier in source order: an argument
whose first two characters are `--` (the `compare(0, 2, "--")` test) is
matched against the known flags in the order of the source if-else chain,
anything else is a positional argument. -/
def classifyArg (arg : String) : ArgClass :=
  if arg.toList.take 2 = ['-', '-'] then
    if arg = "--exit-compile" then .optExitCompile
    else if arg = "--exit-linking" then .optExitLinking
    else if arg = "--persist" then .optPersist
    else if arg = "--delay" then .optDelay
    else if arg = "--output" then .optOutput
    else if arg = "--resolution" then .optResolution
    else if arg = "--vertex" then .optVertex
    else if arg = "--dump_bin" then .optDumpBin
    else .optUnknown
  else .positional

/-- The argument-scanning loop of `setParams` in `main.cpp` (lines
91-128), dispatching on `classifyArg` branch by branch.  Each `crash`
call site there is preceded by `usage(argv[0])`, hence every error below
carries `usageShown := true` and exit code 1. -/
def setParamsLoop (params : Params) : List String → Except CrashInfo Params
  | [] =>
    if params.fragFilename = "" then .error ⟨true, 1, .missingShader⟩
    else .ok params
  | arg :: rest =>
    match classifyArg arg with
    | .optExitCompile => setParamsLoop { params with exitCompile := true } rest
    | .optExitLinking => setParamsLoop { params with exitLinking := true } rest
    | .optPersist => setParamsLoop { params with persist := true } rest
    | .optDelay =>
      match rest with
      | [] => .error ⟨true, 1, .missingValue "--delay"⟩
      | v :: rest2 => setParamsLoop { params with delay := atoi v } rest2
    | .optOutput =>
      match rest with
      | [] => .error ⟨true, 1, .missingValue "--output"⟩
      | v :: rest2 => setParamsLoop { params with output := v } rest2
    | .optResolution =>
      match rest with
      | [] => .error ⟨true, 1, .missingValue "--resolution"⟩
      | v1 :: rest1 =>
        match rest1 with
        | [] => .error ⟨true, 1, .missingValue "--resolution"⟩
        | v2 :: rest2 =>
          setParamsLoop { params with width := atoi v1, height := atoi v2 } rest2
    | .optVertex =>
      match rest with
      | [] => .error ⟨true, 1, .missingValue "--vertex"⟩
      | v :: rest2 => setParamsLoop { params with vertFilename := v } rest2
    | .optDumpBin =>
      match rest with
      | [] => .error ⟨true, 1, .missingValue "--dump_bin"⟩
      | v :: rest2 => setParamsLoop { params with binOut := v } rest2
    | .optUnknown => .error ⟨true, 1, .invalidOption arg⟩
    | .positional =>
      if params.fragFilename = "" then
        setParamsLoop { params with fragFilename := arg } rest
      else .error ⟨true, 1, .extraArg arg params.fragFilename⟩

/-- Mirrors `setParams`: scan the arguments after the program name,
starting from the defaults. -/
def setParams (args : List String) : Except CrashInfo Params :=
  setParamsLoop defaultParams args

/-- Specification-side notion used by claim C10: the positional (non-flag)
arguments of a command line, i.e. the arguments that do not start with
`--` and are not consumed as the value of a preceding value-taking flag
(`--delay`, `--output`, `--vertex`, `--dump_bin` take one value,
`--resolution` takes two). -/
def positionalArgs : List String → List String
  | [] => []
  | arg :: rest =>
    match classifyArg arg with
    | .optDelay =>
      match rest with
      | [] => []
      | _ :: rest2 => positionalArgs rest2
    | .optOutput =>
      match rest with
      | [] => []
      | _ :: rest2 => positionalArgs rest2
    | .optVertex =>
      match rest with
      | [] => []
      | _ :: rest2 => positionalArgs rest2
    | .optDumpBin =>
      match rest with
      | [] => []
      | _ :: rest2 => positionalArgs rest2
    | .optResolution =>
      match rest with
      | [] => []
      | _ :: rest1 =>
        match rest1 with
        | [] => []
        | _ :: rest2 => positionalArgs rest2
    | .positional => arg :: positionalArgs rest
    | .optExitCompile => positionalArgs rest
    | .optExitLinking => positionalArgs rest
    | .optPersist => positionalArgs rest
    | .optUnknown => positionalArgs rest

/-- Failure modes of `getShaderVersion`. -/
inductive ShaderVersionErr where
  | noNewline
  | noVersionDirective
  | unsupportedVersion
deriving DecidableEq, Repr

/-- The fixed ordered token list scanned by `getShaderVersion`
(`main.cpp` lines 189-203), each with its numeric value. -/
def versionTokens : List (List Char × Nat) :=
  [("110".toList, 110), ("120".toList, 120), ("130".toList, 130),
   ("140".toList, 140), ("150".toList, 150), ("330".toList, 330),
   ("400".toList, 400), ("410".toList, 410), ("420".toList, 420),
   ("430".toList, 430), ("440".toList, 440), ("450".toList, 450),
   ("100".toList, 100), ("300".toList, 300)]

/-- Mirrors `getShaderVersion` in `main.cpp`: find the first newline
(crash if none), take the substring before it, require a `#version`
occurrence in it, then return the value of the first token of
`versionTokens` occurring as a substring (crash if none).  Shader text is
modelled as a list of characters; `std::string::find` returning a
position distinct from `npos` is substring (infix) occurrence. -/
def getShaderVersion (fragContents : List Char) : Except ShaderVersionErr Nat :=
  match fragContents.findIdx? (· == '\n') with
  | none => .error .noNewline
  | some pos =>
    let sub := fragContents.take pos
    if ¬ ("#version".toList <:+: sub) then .error .noVersionDirective
    else
      match versionTokens.find? (fun t => decide (t.1 <:+: sub)) with
      | some t => .ok t.2
      | none => .error .unsupportedVersion

/-- The static generic vertex shader body in `generateVertexShader`. -/
def vertGenericContents : String :=
  "vec2 _GLF_vertexPosition;\nvoid main(void) \x7b\n    gl_Position = vec4(_GLF_vertexPosition, 0.0, 1.0);\n\x7d\n"

/-- Mirrors `generateVertexShader`: if a vertex shader path was supplied,
return that file content verbatim (crash -- modelled as `.error ()` -- if
the file is missing, as `readFile` does); otherwise synthesize a version
line from the detected fragment version, with the `es` suffix and `in`
qualifier for version 300 and the `attribute` qualifier otherwise,
followed by the generic body.  The file system is the function `files`. -/
def generateVertexShader (files : String → Option String) (params : Params) :
    Except Unit String :=
  if params.vertFilename ≠ "" then
    match files params.vertFilename with
    | some contents => .ok contents
    | none => .error ()
  else
    .ok ("#version " ++ toString params.shaderVersion ++
      (if params.shaderVersion = 300 then " es\nin " else "\nattribute ") ++
      vertGenericContents)

/-- A uniform initializer record from the description file: the optional
`func` and `args` fields of the JSON entry.  Argument values are
irrelevant to every claim and are modelled as integers. -/
structure UniformEntry where
  func : Option String
  args : Option (List Int)
deriving DecidableEq, Repr

/-- A uniform description: a keyed sequence of entries.  A sequence (not a
finite map) so that a description containing two entries for the same
name is representable, as in claim C5. -/
abbrev UniformDesc := List (String × UniformEntry)

/-- Mirrors `j.count(name)` on the description: how many entries carry
this key. -/
def countKey (desc : UniformDesc) (name : String) : Nat :=
  (desc.filter (fun e => e.1 == name)).length

/-- Mirrors `j[name]`: the first entry for this key (callers only use it
when `countKey desc name = 1`). -/
def getKey (desc : UniformDesc) (name : String) : UniformEntry :=
  ((desc.find? (fun e => e.1 == name)).map Prod.snd).getD ⟨none, none⟩

/-- Mirrors the sanitisation `strchr(uniformName, chr)` followed by
truncation: keep the characters before the first `[`. -/
def stripSubscript (s : String) : String :=
  String.mk (s.toList.takeWhile (· != '['))

/-- The closed set of uniform init function names dispatched by
`setUniformsJSON` (desktop build: the `ui` variants included). -/
def knownUniformFuncs : List String :=
  ["glUniform1f", "glUniform2f", "glUniform3f", "glUniform4f",
   "glUniform1i", "glUniform2i", "glUniform3i", "glUniform4i",
   "glUniform1ui", "glUniform2ui", "glUniform3ui", "glUniform4ui",
   "glUniform1fv", "glUniform2fv", "glUniform3fv", "glUniform4fv",
   "glUniform1iv", "glUniform2iv", "glUniform3iv", "glUniform4iv"]

/-- Failure modes of the per-uniform binding body (each is a `crash` call
in `setUniformsJSON`). -/
inductive UniformErr where
  | missingEntry (name : String)
  | duplicateEntry (name : String)
  | noFuncField (name : String)
  | noArgsField (name : String)
  | locationNotFound (name : String)
  | unknownFunc (func : String)
deriving DecidableEq, Repr

/-- The body of the per-uniform loop in `setUniformsJSON` (lines 317-414):
strip the array subscript, then in source order check for a missing
entry, a duplicate entry, a missing `func` field, a missing `args` field,
an unresolvable uniform location, and finally dispatch on the function
name, failing on names outside the known set. -/
def bindUniform (locOf : String → Int) (desc : UniformDesc) (rawName : String) :
    Except UniformErr Unit :=
  let name := stripSubscript rawName
  if countKey desc name = 0 then .error (.missingEntry name)
  else if 1 < countKey desc name then .error (.duplicateEntry name)
  else
    let info := getKey desc name
    match info.func with
    | none => .error (.noFuncField name)
    | some f =>
      match info.args with
      | none => .error (.noArgsField name)
      | some _ =>
        if locOf name = -1 then .error (.locationNotFound name)
        else if f ∈ knownUniformFuncs then .ok ()
        else .error (.unknownFunc f)

/-- The per-uniform loop: bind each reflected uniform name in order,
propagating the first fatal error. -/
def bindUniforms (locOf : String → Int) (desc : UniformDesc) :
    List String → Except UniformErr Unit
  | [] => .ok ()
  | n :: rest =>
    match bindUniform locOf desc n with
    | .ok _ => bindUniforms locOf desc rest
    | .error e => .error e

/-- The OpenGL backend state relevant to one run, as observed through the
calls `main.cpp` makes: the reflected active-uniform names (their count is
`GL_ACTIVE_UNIFORMS`), uniform-location lookup, the three status queries,
and the `_GLF_vertexPosition` attribute location.  The backend itself is
external to the repository. -/
structure GLEnv where
  uniformNames : List String
  locOf : String → Int
  fragCompileOk : Bool
  vertCompileOk : Bool
  linkOk : Bool
  vertPosLoc : Int

/-- The count reported by `glGetProgramiv(GL_ACTIVE_UNIFORMS)`: the number
of reflected uniforms. -/
def GLEnv.activeUniforms (gl : GLEnv) : Nat := gl.uniformNames.length

/-- The file system and the external JSON parser: `files` maps a path to
its content when the file exists (`isFile` / `readFile`), and `parseDesc`
models `json::parse`, yielding a description or a parse failure. -/
structure FSEnv where
  files : String → Option String
  parseDesc : String → Except Unit UniformDesc

/-- Observable side effects of a run, in order of occurrence. -/
inductive Ev where
  | compileFrag
  | shaderDiagLog
  | compileVert
  | linkStep
  | programDiagLog
  | dumpBinStep
  | readDescFile
  | render
  | swapBuffers
  | capture
  | waitKey
deriving DecidableEq, Repr

/-- Mirrors the derivation `jsonFilename.replace(end-4, end, "json")`:
replace the last four characters of the fragment shader path with
`json`. -/
def descFilename (frag : String) : String := frag.dropRight 4 ++ "json"

/-- Mirrors `setJSONDefaultEntries` applied to an empty object: the four
built-in entries, with the resolution entry sized to the viewport. -/
def defaultDesc (params : Params) : UniformDesc :=
  [("injectionSwitch", ⟨some "glUniform2f", some [0, 1]⟩),
   ("time", ⟨some "glUniform1f", some [0]⟩),
   ("mouse", ⟨some "glUniform2f", some [0, 0]⟩),
   ("resolution", ⟨some "glUniform2f", some [params.width, params.height]⟩)]

/-- How `setUniformsJSON` fails: a malformed description file
(`json::parse` failure) or a per-uniform binding error. -/
inductive SetUniformsErr where
  | malformedDesc
  | uniformErr (e : UniformErr)
deriving DecidableEq, Repr

/-- Mirrors `setUniformsJSON` (lines 289-417): if the program has zero
active uniforms, return at once without touching the file system;
otherwise read and parse the description file derived from the fragment
path when it exists (recording the read), fall back to the default
entries when it does not, then run the per-uniform binding loop. -/
def setUniformsJSON (gl : GLEnv) (fs : FSEnv) (params : Params) :
    Except SetUniformsErr Unit × List Ev :=
  if gl.activeUniforms = 0 then (.ok (), [])
  else
    match fs.files (descFilename params.fragFilename) with
    | some content =>
      match fs.parseDesc content with
      | .error _ => (.error .malformedDesc, [.readDescFile])
      | .ok desc =>
        match bindUniforms gl.locOf desc gl.uniformNames with
        | .ok _ => (.ok (), [.readDescFile])
        | .error e => (.error (.uniformErr e), [.readDescFile])
    | none =>
      match bindUniforms gl.locOf (defaultDesc params) gl.uniformNames with
      | .ok _ => (.ok (), [])
      | .error e => (.error (.uniformErr e), [])

/-- Exit code for a shader compilation failure (`main.cpp` line 13). -/
def COMPILE_ERROR_EXIT_CODE : Nat := 101

/-- Exit code for a program link failure (`main.cpp` line 14). -/
def LINK_ERROR_EXIT_CODE : Nat := 102

/-- The C constant `EXIT_SUCCESS`. -/
def EXIT_SUCCESS : Nat := 0

/-- Modelled from the spec: `crash` (in `common.h`, not under `src/`)
prints a message and terminates the process with the generic error exit
code, documented as `1` both in the spec exit-code table and in the usage
text of `main.cpp`. -/
def GENERIC_ERROR_EXIT_CODE : Nat := 1

/-- Mirrors `openglInit` (lines 499-586).  Result: `some code` when the
process terminates inside the function (via `exit`, `errcode_crash` or
`crash`), `none` when it returns to `main`; paired with the event trace.
Source order: fragment compile and status check (101 on failure, after
printing the shader log); the `--exit-compile` exit; vertex shader
generation (crash if the supplied file is unreadable) and compile (101 on
failure, after the log); link (102 on failure, after the program log);
binary dump when requested; the `--exit-linking` exit; the
`_GLF_vertexPosition` lookup (crash when absent); uniform binding (any
failure there is a `crash`). -/
def openglInit (gl : GLEnv) (fs : FSEnv) (params : Params) :
    Option Nat × List Ev :=
  if gl.fragCompileOk = false then
    (some COMPILE_ERROR_EXIT_CODE, [.compileFrag, .shaderDiagLog])
  else if params.exitCompile then
    (some EXIT_SUCCESS, [.compileFrag])
  else
    match generateVertexShader fs.files params with
    | .error _ => (some GENERIC_ERROR_EXIT_CODE, [.compileFrag])
    | .ok _ =>
      if gl.vertCompileOk = false then
        (some COMPILE_ERROR_EXIT_CODE, [.compileFrag, .compileVert, .shaderDiagLog])
      else if gl.linkOk = false then
        (some LINK_ERROR_EXIT_CODE, [.compileFrag, .compileVert, .linkStep, .programDiagLog])
      else
        let tr := [Ev.compileFrag, Ev.compileVert, Ev.linkStep] ++
          (if params.binOut ≠ "" then [Ev.dumpBinStep] else [])
        if params.exitLinking then (some EXIT_SUCCESS, tr)
        else if gl.vertPosLoc = -1 then (some GENERIC_ERROR_EXIT_CODE, tr)
        else
          match setUniformsJSON gl fs params with
          | (.error _, tr2) => (some GENERIC_ERROR_EXIT_CODE, tr ++ tr2)
          | (.ok _, tr2) => (none, tr ++ tr2)

/-- State of the render loop in `main` (lines 641-660): the frame counter
(a C `int`), the `saved` flag, and whether the window has been closed
(`contextKeepLooping` is false). -/
structure LoopSt where
  numFrames : Int
  saved : Bool
  closed : Bool
deriving DecidableEq, Repr

/-- Mirrors the render loop of `main` (lines 644-660).  Each iteration
renders, swaps, increments the frame counter; when the counter equals the
delay and no capture happened yet it captures, then either breaks (no
persist) or waits for a key press.  `fuel` bounds how many iterations the
external `contextKeepLooping` predicate still allows (the loop stops when
it reaches 0, e.g. the window is closed from outside).  Modelled from the
spec: `contextSetKeyCallback` together with the subsequent looping is the
collaborator operation `waitForKeyThenClose` -- a blocking wait for a key
press after which the window closes, so `closed` becomes true and the
loop terminates without further rendering; the context backend is not
under `src/`. -/
def runLoop (persist : Bool) (delay : Int) : Nat → LoopSt → LoopSt × List Ev
  | 0, st => (st, [])
  | fuel + 1, st =>
    if st.closed then (st, [])
    else
      let st1 : LoopSt := { st with numFrames := st.numFrames + 1 }
      if st1.numFrames = delay ∧ st1.saved = false then
        if persist then
          let st2 : LoopSt := { st1 with saved := true, closed := true }
          let next := runLoop persist delay fuel st2
          (next.1, [Ev.render, Ev.swapBuffers, Ev.capture, Ev.waitKey] ++ next.2)
        else
          ({ st1 with saved := true }, [Ev.render, Ev.swapBuffers, Ev.capture])
      else
        let next := runLoop persist delay fuel st1
        (next.1, [Ev.render, Ev.swapBuffers] ++ next.2)

/-- The whole run after argument parsing and shader loading: `openglInit`
followed, when it returns, by the render loop and the final
`exit(EXIT_SUCCESS)` of `main`.  Result: final exit code and trace. -/
def mainRun (gl : GLEnv) (fs : FSEnv) (params : Params) (fuel : Nat) :
    Nat × List Ev :=
  match openglInit gl fs params with
  | (some code, tr) => (code, tr)
  | (none, tr) =>
    let res := runLoop params.persist params.delay fuel ⟨0, false, false⟩
    (EXIT_SUCCESS, tr ++ res.2)

/-- Number of colour channels written by `savePNG` (RGBA). -/
def CHANNELS : Nat := 4

/-- Mirrors the flipping loop of `savePNG` (lines 613-617): build the
flipped buffer row by row, entry `h * w * CHANNELS + col` taking the
value of entry `(height - h - 1) * w * CHANNELS + col` of the readback
buffer. -/
def flipRows (w h : Nat) (data : List Nat) : List Nat :=
  (List.range h).flatMap fun r =>
    (List.range (w * CHANNELS)).map fun col =>
      data.getD ((h - r - 1) * w * CHANNELS + col) 0

/-- Row `r` of a flat buffer whose rows are `rowW` entries wide. -/
def bufRow (rowW r : Nat) (buf : List Nat) : List Nat :=
  (buf.drop (r * rowW)).take rowW

/-- The trace fragment produced by `k` render iterations that do not
capture. -/
def framePairs : Nat → List Ev
  | 0 => []
  | k + 1 => Ev.render :: Ev.swapBuffers :: framePairs k

/-- The set of GLSL versions accepted by `getShaderVersion`: the values of
the tokens it scans for. -/
def supportedVersions : List Nat := versionTokens.map Prod.snd

deriving instance DecidableEq for Except

/-! ## Theorems -/

/-- C4: for every linked program whose active-uniform count is zero, the
uniform binder returns immediately and successfully, performing no
description-file access at all, for every state of the file system
(description file absent, present, or malformed alike). -/
theorem C4_zero_uniforms (gl : GLEnv) (fs : FSEnv) (params : Params)
    (h : gl.activeUniforms = 0) :
    setUniformsJSON gl fs params = (.ok (), []) := by
  simp [setUniformsJSON, h]

theorem C4_zero_uniforms_witness :
    setUniformsJSON ⟨[], fun _ => 0, true, true, true, 0⟩
      ⟨fun _ => some "this is not a description", fun _ => .error ()⟩
      defaultParams = (.ok (), []) :=
  C4_zero_uniforms _ _ _ rfl

/-- C2: a failed fragment or vertex shader compilation terminates the run
with exit code `COMPILE_ERROR_EXIT_CODE` = 101 right after printing the
backend shader log, a failed link terminates it with
`LINK_ERROR_EXIT_CODE` = 102 right after printing the backend program
log, and these codes are distinct from the generic error code 1 and from
success 0. -/
theorem C2_failure_exit_codes :
    (∀ (gl : GLEnv) (fs : FSEnv) (params : Params), gl.fragCompileOk = false →
      openglInit gl fs params =
        (some COMPILE_ERROR_EXIT_CODE, [Ev.compileFrag, Ev.shaderDiagLog])) ∧
    (∀ (gl : GLEnv) (fs : FSEnv) (params : Params) (v : String),
      gl.fragCompileOk = true → params.exitCompile = false →
      generateVertexShader fs.files params = .ok v → gl.vertCompileOk = false →
      openglInit gl fs params =
        (some COMPILE_ERROR_EXIT_CODE,
         [Ev.compileFrag, Ev.compileVert, Ev.shaderDiagLog])) ∧
    (∀ (gl : GLEnv) (fs : FSEnv) (params : Params) (v : String),
      gl.fragCompileOk = true → params.exitCompile = false →
      generateVertexShader fs.files params = .ok v →
      gl.vertCompileOk = true → gl.linkOk = false →
      openglInit gl fs params =
        (some LINK_ERROR_EXIT_CODE,
         [Ev.compileFrag, Ev.compileVert, Ev.linkStep, Ev.programDiagLog])) ∧
    (COMPILE_ERROR_EXIT_CODE = 101 ∧ LINK_ERROR_EXIT_CODE = 102 ∧
     COMPILE_ERROR_EXIT_CODE ≠ GENERIC_ERROR_EXIT_CODE ∧
     LINK_ERROR_EXIT_CODE ≠ GENERIC_ERROR_EXIT_CODE ∧
     COMPILE_ERROR_EXIT_CODE ≠ EXIT_SUCCESS ∧
     LINK_ERROR_EXIT_CODE ≠ EXIT_SUCCESS ∧
     COMPILE_ERROR_EXIT_CODE ≠ LINK_ERROR_EXIT_CODE) := by
  refine ⟨?_, ?_, ?_, by decide⟩
  · intro gl fs params hf
    simp [openglInit, hf]
  · intro gl fs params v hf hec hgen hv
    simp [openglInit, hf, hec, hgen, hv]
  · intro gl fs params v hf hec hgen hv hl
    simp [openglInit, hf, hec, hgen, hv, hl]

theorem C2_failure_exit_codes_witness :
    (openglInit ⟨[], fun _ => 0, false, true, true, 0⟩
        ⟨fun _ => none, fun _ => .error ()⟩ defaultParams =
      (some COMPILE_ERROR_EXIT_CODE, [Ev.compileFrag, Ev.shaderDiagLog])) ∧
    (openglInit ⟨[], fun _ => 0, true, false, true, 0⟩
        ⟨fun _ => none, fun _ => .error ()⟩ defaultParams =
      (some COMPILE_ERROR_EXIT_CODE,
       [Ev.compileFrag, Ev.compileVert, Ev.shaderDiagLog])) ∧
    (openglInit ⟨[], fun _ => 0, true, true, false, 0⟩
        ⟨fun _ => none, fun _ => .error ()⟩ defaultParams =
      (some LINK_ERROR_EXIT_CODE,
       [Ev.compileFrag, Ev.compileVert, Ev.linkStep, Ev.programDiagLog])) :=
  ⟨C2_failure_exit_codes.1 _ _ _ rfl,
   C2_failure_exit_codes.2.1 _ _ _ _ rfl rfl rfl rfl,
   C2_failure_exit_codes.2.2.1 _ _ _ _ rfl rfl rfl rfl rfl⟩

/-- C6: when configured to stop after compile, a run whose fragment shader
compiles exits with code 0 right after the fragment compile: the whole
trace is the single fragment-compile event, so no vertex compile, no
link, no render and no capture happen and no image is written, whatever
the configured delay is. -/
theorem C6_exit_compile_mode (gl : GLEnv) (fs : FSEnv) (params : Params)
    (fuel : Nat) (hec : params.exitCompile = true)
    (hok : gl.fragCompileOk = true) :
    mainRun gl fs params fuel = (EXIT_SUCCESS, [Ev.compileFrag]) ∧
    EXIT_SUCCESS = 0 ∧
    Ev.compileVert ∉ (mainRun gl fs params fuel).2 ∧
    Ev.linkStep ∉ (mainRun gl fs params fuel).2 ∧
    Ev.render ∉ (mainRun gl fs params fuel).2 ∧
    Ev.capture ∉ (mainRun gl fs params fuel).2 := by
  have h : mainRun gl fs params fuel = (EXIT_SUCCESS, [Ev.compileFrag]) := by
    simp [mainRun, openglInit, hec, hok]
  refine ⟨h, rfl, ?_, ?_, ?_, ?_⟩ <;> rw [h] <;> decide

theorem C6_exit_compile_mode_witness :
    mainRun ⟨["time"], fun _ => 0, true, true, true, 0⟩
      ⟨fun _ => none, fun _ => .error ()⟩
      { defaultParams with exitCompile := true } 10 =
      (EXIT_SUCCESS, [Ev.compileFrag]) :=
  (C6_exit_compile_mode _ _ _ _ rfl rfl).1

/-- Binding a list of uniforms whose prefix binds successfully reduces to
binding the remainder. -/
theorem bindUniforms_append (locOf : String → Int) (desc : UniformDesc)
    (pre l : List String)
    (h : ∀ m ∈ pre, bindUniform locOf desc m = .ok ()) :
    bindUniforms locOf desc (pre ++ l) = bindUniforms locOf desc l := by
  induction pre with
  | nil => rfl
  | cons a t ih =>
    have ha := h a (by simp)
    simp only [List.cons_append, bindUniforms, ha]
    exact ih (fun m hm => h m (by simp [hm]))

/-- A uniform whose normalized name has at least two description entries
makes the per-uniform body fail with the duplicate-entry error. -/
theorem bindUniform_duplicate (locOf : String → Int) (desc : UniformDesc)
    (nm : String) (h : 2 ≤ countKey desc (stripSubscript nm)) :
    bindUniform locOf desc nm = .error (.duplicateEntry (stripSubscript nm)) := by
  have h0 : ¬ (countKey desc (stripSubscript nm) = 0) := by omega
  have h1 : 1 < countKey desc (stripSubscript nm) := by omega
  simp [bindUniform, h0, h1]

/-- C5: when the description resolved from the file has two (or more)
entries for the normalized name of an active uniform, a run that reaches
the binding of that uniform terminates with the fatal duplicate-entry
error, which is distinct from the missing-entry error. -/
theorem C5_duplicate_entry
    (gl : GLEnv) (fs : FSEnv) (params : Params) (desc : UniformDesc)
    (content : String) (pre post : List String) (nm : String)
    (hnames : gl.uniformNames = pre ++ nm :: post)
    (hfile : fs.files (descFilename params.fragFilename) = some content)
    (hparse : fs.parseDesc content = .ok desc)
    (hpre : ∀ m ∈ pre, bindUniform gl.locOf desc m = .ok ())
    (hdup : 2 ≤ countKey desc (stripSubscript nm)) :
    setUniformsJSON gl fs params =
      (.error (.uniformErr (.duplicateEntry (stripSubscript nm))),
       [Ev.readDescFile]) ∧
    ∀ m, (UniformErr.duplicateEntry (stripSubscript nm)) ≠
      UniformErr.missingEntry m := by
  constructor
  · have hn : ¬ gl.activeUniforms = 0 := by
      simp [GLEnv.activeUniforms, hnames]
    have hb : bindUniforms gl.locOf desc gl.uniformNames =
        .error (.duplicateEntry (stripSubscript nm)) := by
      rw [hnames, bindUniforms_append _ _ _ _ hpre]
      simp only [bindUniforms, bindUniform_duplicate _ _ _ hdup]
    simp [setUniformsJSON, hn, hfile, hparse, hb]
  · intro m
    simp

theorem C5_duplicate_entry_witness :
    setUniformsJSON ⟨["time[0]"], fun _ => 0, true, true, true, 0⟩
      ⟨fun _ => some "desc",
       fun _ => .ok [("time", ⟨some "glUniform1f", some [0]⟩),
                     ("time", ⟨some "glUniform1f", some [1]⟩)]⟩
      defaultParams =
      (.error (.uniformErr (.duplicateEntry (stripSubscript "time[0]"))),
       [Ev.readDescFile]) :=
  (C5_duplicate_entry _ _ _ _ "desc" [] [] "time[0]" rfl rfl rfl
    (by simp) (by decide)).1

set_option maxRecDepth 4000 in
/-- C7: when a vertex shader path is supplied the synthesizer returns that
file content verbatim; otherwise, for detected version 300 the
synthesized shader has the version line `#version 300 es` and uses the
`in` qualifier, and for every other supported version it uses the legacy
`attribute` qualifier; in both synthesized cases it declares the
2-component `_GLF_vertexPosition` input and writes it to `gl_Position`
with z = 0.0 and w = 1.0. -/
theorem C7_vertex_shader_synthesis :
    (∀ (files : String → Option String) (params : Params) (contents : String),
      params.vertFilename ≠ "" → files params.vertFilename = some contents →
      generateVertexShader files params = .ok contents) ∧
    (∀ (files : String → Option String) (params : Params),
      params.vertFilename = "" → params.shaderVersion = 300 →
      ∃ out, generateVertexShader files params = .ok out ∧
        out.toList.takeWhile (· != '\n') = "#version 300 es".toList ∧
        ("\nin vec2 _GLF_vertexPosition;".toList <:+: out.toList) ∧
        ("gl_Position = vec4(_GLF_vertexPosition, 0.0, 1.0);".toList <:+:
          out.toList)) ∧
    (∀ (files : String → Option String) (params : Params),
      params.vertFilename = "" → params.shaderVersion ∈ supportedVersions →
      params.shaderVersion ≠ 300 →
      ∃ out, generateVertexShader files params = .ok out ∧
        ("\nattribute vec2 _GLF_vertexPosition;".toList <:+: out.toList) ∧
        ("gl_Position = vec4(_GLF_vertexPosition, 0.0, 1.0);".toList <:+:
          out.toList)) := by
  refine ⟨?_, ?_, ?_⟩
  · intro files params contents h1 h2
    simp [generateVertexShader, h1, h2]
  · intro files params h1 h2
    refine ⟨"#version " ++ toString params.shaderVersion ++ " es\nin " ++
      vertGenericContents, by simp [generateVertexShader, h1, h2], ?_, ?_, ?_⟩ <;>
      rw [h2] <;> decide
  · intro files params h1 hmem h300
    have hgen : generateVertexShader files params =
        .ok ("#version " ++ toString params.shaderVersion ++ "\nattribute " ++
          vertGenericContents) := by
      simp [generateVertexShader, h1, h300]
    refine ⟨_, hgen, ?_, ?_⟩ <;>
      · simp [supportedVersions, versionTokens] at hmem
        rcases hmem with h|h|h|h|h|h|h|h|h|h|h|h|h|h <;>
          first
          | exact absurd h h300
          | (rw [h]; decide)

theorem C7_vertex_shader_synthesis_witness :
    (generateVertexShader (fun _ => some "my vertex shader")
      { defaultParams with vertFilename := "a.vert" } =
        .ok "my vertex shader") ∧
    (∃ out, generateVertexShader (fun _ => none)
        { defaultParams with shaderVersion := 300 } = .ok out ∧
      out.toList.takeWhile (· != '\n') = "#version 300 es".toList ∧
      ("\nin vec2 _GLF_vertexPosition;".toList <:+: out.toList) ∧
      ("gl_Position = vec4(_GLF_vertexPosition, 0.0, 1.0);".toList <:+:
        out.toList)) ∧
    (∃ out, generateVertexShader (fun _ => none)
        { defaultParams with shaderVersion := 110 } = .ok out ∧
      ("\nattribute vec2 _GLF_vertexPosition;".toList <:+: out.toList) ∧
      ("gl_Position = vec4(_GLF_vertexPosition, 0.0, 1.0);".toList <:+:
        out.toList)) :=
  ⟨C7_vertex_shader_synthesis.1 _ _ _ (by decide) rfl,
   C7_vertex_shader_synthesis.2.1 _ _ rfl rfl,
   C7_vertex_shader_synthesis.2.2 _ _ rfl (by decide) (by decide)⟩

/-- Finding the first element satisfying a predicate is taking the head of
the filtered list. -/
theorem findFilterHead {α : Type} (p : α → Bool) (l : List α) :
    l.find? p = (l.filter p).head? := by
  induction l with
  | nil => rfl
  | cons a t ih =>
    cases hp : p a
    · rw [List.find?_cons_of_neg _ (by simp [hp]),
        List.filter_cons_of_neg (by simp [hp]), ih]
    · rw [List.find?_cons_of_pos _ hp, List.filter_cons_of_pos hp]
      rfl

/-- The first newline of `line ++ '\n' :: rest` sits at index
`line.length` when `line` itself has no newline. -/
theorem findIdxNewlineAppend (line rest : List Char) (h : '\n' ∉ line) :
    (line ++ '\n' :: rest).findIdx? (· == '\n') = some line.length := by
  induction line with
  | nil => simp [List.findIdx?_cons]
  | cons a t ih =>
    have ha : (a == '\n') = false := by
      simp only [beq_eq_false_iff_ne, ne_eq]
      rintro rfl
      exact h (by simp)
    have ih2 := ih (fun hm => h (by simp [hm]))
    simp [List.findIdx?_cons, ha, List.findIdx?_succ, ih2]

/-- Finding with a predicate that fails on a prefix and holds at the next
element yields that element. -/
theorem findFirstAppend {α : Type} (p : α → Bool) (pre post : List α) (a : α)
    (hpre : ∀ t ∈ pre, p t = false) (ha : p a = true) :
    (pre ++ a :: post).find? p = some a := by
  induction pre with
  | nil => simp [List.find?_cons_of_pos _ ha]
  | cons b t ih =>
    rw [List.cons_append, List.find?_cons_of_neg _ (by simp [hpre b (by simp)])]
    exact ih (fun x hx => hpre x (by simp [hx]))

/-- C3: version detection inspects only the substring before the first
newline: it fails when no newline exists; it fails when the first line
lacks a `#version` occurrence; it scans the token list in its fixed
order and returns the numeric value of the first token occurring in the
first line; it fails with the unsupported-version error when no token of
the list occurs there; in particular when the first line embeds exactly
one supported token the returned value is that token's value; and the
result never depends on the content of later lines. -/
theorem C3_version_detection :
    (∀ s : List Char, '\n' ∉ s → getShaderVersion s = .error .noNewline) ∧
    (∀ (s : List Char) (pos : Nat), s.findIdx? (· == '\n') = some pos →
      ¬ ("#version".toList <:+: s.take pos) →
      getShaderVersion s = .error .noVersionDirective) ∧
    (∀ (s : List Char) (pos : Nat) (pre post : List (List Char × Nat))
      (tok : List Char × Nat),
      s.findIdx? (· == '\n') = some pos →
      ("#version".toList <:+: s.take pos) →
      versionTokens = pre ++ tok :: post →
      (∀ t ∈ pre, ¬ (t.1 <:+: s.take pos)) →
      (tok.1 <:+: s.take pos) →
      getShaderVersion s = .ok tok.2) ∧
    (∀ (s : List Char) (pos : Nat), s.findIdx? (· == '\n') = some pos →
      ("#version".toList <:+: s.take pos) →
      (∀ t ∈ versionTokens, ¬ (t.1 <:+: s.take pos)) →
      getShaderVersion s = .error .unsupportedVersion) ∧
    (∀ (s : List Char) (pos : Nat) (tok : List Char × Nat),
      s.findIdx? (· == '\n') = some pos →
      ("#version".toList <:+: s.take pos) →
      versionTokens.filter (fun t => decide (t.1 <:+: s.take pos)) = [tok] →
      getShaderVersion s = .ok tok.2) ∧
    (∀ (line rest1 rest2 : List Char), '\n' ∉ line →
      getShaderVersion (line ++ '\n' :: rest1) =
        getShaderVersion (line ++ '\n' :: rest2)) := by
  refine ⟨?_, ?_, ?_, ?_, ?_, ?_⟩
  · intro s h
    have hnone : s.findIdx? (· == '\n') = none := by
      rw [List.findIdx?_eq_none_iff]
      intro x hx
      simp only [beq_eq_false_iff_ne, ne_eq]
      rintro rfl
      exact h hx
    simp [getShaderVersion, hnone]
  · intro s pos hpos hnv
    have hnv2 : ¬ (['#', 'v', 'e', 'r', 's', 'i', 'o', 'n'] <:+: s.take pos) := by
      simpa using hnv
    simp [getShaderVersion, hpos, hnv2]
  · intro s pos pre post tok hpos hver hsplit hpre htok
    have hfind : versionTokens.find? (fun t => decide (t.1 <:+: s.take pos)) =
        some tok := by
      rw [hsplit]
      exact findFirstAppend _ _ _ _ (fun t ht => by simpa using hpre t ht)
        (by simpa using htok)
    have hver2 : ['#', 'v', 'e', 'r', 's', 'i', 'o', 'n'] <:+: s.take pos := by
      simpa using hver
    simp [getShaderVersion, hpos, hver2, hfind]
  · intro s pos hpos hver hnone
    have hfind : versionTokens.find? (fun t => decide (t.1 <:+: s.take pos)) =
        none := by
      rw [List.find?_eq_none]
      intro t ht
      simpa using hnone t ht
    have hver2 : ['#', 'v', 'e', 'r', 's', 'i', 'o', 'n'] <:+: s.take pos := by
      simpa using hver
    simp [getShaderVersion, hpos, hver2, hfind]
  · intro s pos tok hpos hver hfilt
    have hfind : versionTokens.find? (fun t => decide (t.1 <:+: s.take pos)) =
        some tok := by
      rw [findFilterHead, hfilt]
      rfl
    have hver2 : ['#', 'v', 'e', 'r', 's', 'i', 'o', 'n'] <:+: s.take pos := by
      simpa using hver
    simp [getShaderVersion, hpos, hver2, hfind]
  · intro line rest1 rest2 h
    have h1 := findIdxNewlineAppend line rest1 h
    have h2 := findIdxNewlineAppend line rest2 h
    simp [getShaderVersion, h1, h2, List.take_left]

theorem C3_version_detection_witness :
    getShaderVersion "no newline at all".toList = .error .noNewline ∧
    getShaderVersion "nothing here\n110".toList = .error .noVersionDirective ∧
    getShaderVersion "#version 4100\nrest 120".toList = .ok 410 ∧
    getShaderVersion "#version 200\nfoo 330".toList =
      .error .unsupportedVersion ∧
    getShaderVersion "#version 300 es\nanything 110 here".toList = .ok 300 ∧
    getShaderVersion ("#version 450".toList ++ '\n' :: "aaa 120".toList) =
      getShaderVersion ("#version 450".toList ++ '\n' :: "bbb 130".toList) :=
  ⟨C3_version_detection.1 _ (by decide),
   C3_version_detection.2.1 _ 12 (by decide) (by decide),
   C3_version_detection.2.2.1 _ 13
     [("110".toList, 110), ("120".toList, 120), ("130".toList, 130),
      ("140".toList, 140), ("150".toList, 150), ("330".toList, 330),
      ("400".toList, 400)]
     [("420".toList, 420), ("430".toList, 430), ("440".toList, 440),
      ("450".toList, 450), ("100".toList, 100), ("300".toList, 300)]
     ("410".toList, 410) (by decide) (by decide) (by decide) (by decide)
     (by decide),
   C3_version_detection.2.2.2.1 _ 12 (by decide) (by decide) (by decide),
   C3_version_detection.2.2.2.2.1 _ 15 ("300".toList, 300) (by decide)
     (by decide) (by decide),
   C3_version_detection.2.2.2.2.2 _ _ _ (by decide)⟩

/-- Extracting row `r` of the concatenation of `n` rows of width `W`
yields the `r`-th generating row. -/
theorem bufRowFlatMap (f : Nat → List Nat) (W : Nat)
    (hf : ∀ i, (f i).length = W) :
    ∀ (n a r : Nat), r < n →
      bufRow W r ((List.range' a n).flatMap f) = f (a + r) := by
  intro n
  induction n with
  | zero => intro a r hr; omega
  | succ m ih =>
    intro a r hr
    rw [List.range'_succ, List.flatMap_cons]
    cases r with
    | zero =>
      show bufRow W 0 (f a ++ (List.range' (a + 1) m).flatMap f) = f (a + 0)
      simp only [bufRow, Nat.zero_mul, List.drop_zero, Nat.add_zero]
      rw [← hf a, List.take_left]
    | succ r2 =>
      have key : bufRow W (r2 + 1) (f a ++ (List.range' (a + 1) m).flatMap f) =
          bufRow W r2 ((List.range' (a + 1) m).flatMap f) := by
        simp only [bufRow]
        have he : (r2 + 1) * W = (f a).length + r2 * W := by
          rw [hf a]; ring
        rw [he, ← List.drop_drop, List.drop_left]
      rw [key, ih (a + 1) r2 (by omega)]
      have : a + 1 + r2 = a + (r2 + 1) := by omega
      rw [this]

/-- Reading `W` consecutive entries by index is taking `W` entries after
dropping the prefix. -/
theorem mapGetDRange (data : List Nat) (start W : Nat)
    (h : start + W ≤ data.length) :
    (List.range W).map (fun c => data.getD (start + c) 0) =
      (data.drop start).take W := by
  apply List.ext_getElem
  · simp
    omega
  · intro n h1 h2
    have hn : n < W := by simpa using h1
    have hb : start + n < data.length := by omega
    simp only [List.getElem_map, List.getElem_range, List.getElem_take,
      List.getElem_drop]
    exact List.getD_eq_getElem data 0 hb

/-- C8: for every width, height and readback buffer of `w * h * CHANNELS`
bytes, the flipped buffer built by `savePNG` has the same size and its
row `i` is row `h - 1 - i` of the readback buffer, copied verbatim, for
every row index `i < h`. -/
theorem C8_flipped_rows (w h : Nat) (data : List Nat)
    (hlen : data.length = w * h * CHANNELS) :
    (flipRows w h data).length = w * h * CHANNELS ∧
    ∀ i, i < h →
      bufRow (w * CHANNELS) i (flipRows w h data) =
        bufRow (w * CHANNELS) (h - 1 - i) data := by
  constructor
  · simp only [flipRows, List.length_flatMap]
    simp [Function.comp_def, List.map_const']
    ring
  · intro i hi
    have hstep : bufRow (w * CHANNELS) i (flipRows w h data) =
        (List.range (w * CHANNELS)).map
          (fun col => data.getD ((h - (0 + i) - 1) * w * CHANNELS + col) 0) := by
      simp only [flipRows, List.range_eq_range']
      exact bufRowFlatMap _ _ (fun j => by simp) h 0 i hi
    have he : (h - (0 + i) - 1) * w * CHANNELS =
        (h - 1 - i) * (w * CHANNELS) := by
      have h2 : h - (0 + i) - 1 = h - 1 - i := by omega
      rw [h2, Nat.mul_assoc]
    rw [hstep]
    simp only [he]
    have e2 : (h - 1 - i) * (w * CHANNELS) + w * CHANNELS =
        (h - i) * (w * CHANNELS) := by
      have h3 : h - i = (h - 1 - i) + 1 := by omega
      rw [h3, add_one_mul]
    have hbound : (h - 1 - i) * (w * CHANNELS) + w * CHANNELS ≤ data.length := by
      calc (h - 1 - i) * (w * CHANNELS) + w * CHANNELS
          = (h - i) * (w * CHANNELS) := e2
        _ ≤ h * (w * CHANNELS) := Nat.mul_le_mul_right _ (by omega)
        _ = w * h * CHANNELS := by ring
        _ = data.length := hlen.symm
    rw [mapGetDRange data _ _ hbound]
    rfl

theorem C8_flipped_rows_witness :
    (flipRows 1 2 [0, 1, 2, 3, 4, 5, 6, 7]).length = 1 * 2 * CHANNELS ∧
    bufRow (1 * CHANNELS) 0 (flipRows 1 2 [0, 1, 2, 3, 4, 5, 6, 7]) =
      bufRow (1 * CHANNELS) (2 - 1 - 0) [0, 1, 2, 3, 4, 5, 6, 7] ∧
    bufRow (1 * CHANNELS) 1 (flipRows 1 2 [0, 1, 2, 3, 4, 5, 6, 7]) =
      bufRow (1 * CHANNELS) (2 - 1 - 1) [0, 1, 2, 3, 4, 5, 6, 7] :=
  ⟨(C8_flipped_rows 1 2 _ (by decide)).1,
   (C8_flipped_rows 1 2 _ (by decide)).2 0 (by decide),
   (C8_flipped_rows 1 2 _ (by decide)).2 1 (by decide)⟩

/-- A closed window (keepLooping false) ends the loop at once. -/
theorem runLoopClosed (persist : Bool) (delay : Int) (fuel : Nat)
    (st : LoopSt) (h : st.closed = true) :
    runLoop persist delay fuel st = (st, []) := by
  cases fuel <;> simp [runLoop, h]

/-- Reaching the capture iteration: starting `k ≥ 1` frames before the
delay with enough fuel, the loop renders `k` frames, captures on the
`k`-th, then stops (waiting for the close key first when persisting). -/
theorem runLoopCaptureTrace (persist : Bool) (delay : Int) :
    ∀ (k : Nat), 1 ≤ k → ∀ (fuel : Nat) (st : LoopSt), k ≤ fuel →
      st.saved = false → st.closed = false →
      st.numFrames + (k : Int) = delay →
      runLoop persist delay fuel st =
        (⟨delay, true, persist⟩,
         framePairs (k - 1) ++ [Ev.render, Ev.swapBuffers, Ev.capture] ++
           (if persist then [Ev.waitKey] else [])) := by
  intro k
  induction k with
  | zero => omega
  | succ m ih =>
    intro _ fuel st hfuel hsave hclosed hsum
    obtain ⟨f, rfl⟩ : ∃ f, fuel = f + 1 := ⟨fuel - 1, by omega⟩
    cases m with
    | zero =>
      have hcond : st.numFrames + 1 = delay := by
        push_cast at hsum
        omega
      cases hp : persist <;>
        simp [runLoop, hclosed, hsave, hcond, runLoopClosed, framePairs, hp]
    | succ j =>
      have hne : ¬ (st.numFrames + 1 = delay) := by
        push_cast at hsum
        omega
      have hih := ih (by omega) f { st with numFrames := st.numFrames + 1 }
        (by omega) hsave hclosed (by push_cast at hsum ⊢; omega)
      rw [hsave, hclosed] at hih
      simp [runLoop, hclosed, hne, hsave, hih, framePairs]

/-- With a non-positive delay the comparison `numFrames == delay` never
succeeds (the counter is incremented before the comparison), so the loop
never captures. -/
theorem runLoopNoCapture (persist : Bool) (delay : Int) (hd : delay ≤ 0) :
    ∀ (fuel : Nat) (st : LoopSt), 0 ≤ st.numFrames →
      (runLoop persist delay fuel st).2.count Ev.capture = 0 := by
  intro fuel
  induction fuel with
  | zero => intro st h; simp [runLoop]
  | succ f ih =>
    intro st h
    cases hc : st.closed
    · have hne : ¬ (st.numFrames + 1 = delay) := by omega
      have hrec := ih { st with numFrames := st.numFrames + 1 } (by simp; omega)
      rw [hc] at hrec
      simp [runLoop, hc, hne, hrec]
    · simp [runLoop, hc]

/-- The per-frame trace fragments contain no capture event. -/
theorem framePairsNoCapture (k : Nat) :
    (framePairs k).count Ev.capture = 0 := by
  induction k with
  | zero => rfl
  | succ j ih => simp [framePairs, List.count_cons, ih]

/-- C1 (amended): the capture happens exactly once per run, on the
iteration where the frame counter -- incremented before the comparison --
equals the configured delay, provided the delay is at least 1 and the
loop is allowed at least that many iterations; for a delay of 0 (or any
non-positive delay) the incremented counter never equals the delay, so
the capture never happens -- in particular it does not happen on the
first frame. -/
theorem C1_capture_once :
    (∀ (persist : Bool) (delay : Int) (k fuel : Nat),
      (k : Int) = delay → 1 ≤ k → k ≤ fuel →
      (runLoop persist delay fuel ⟨0, false, false⟩).2 =
        framePairs (k - 1) ++ [Ev.render, Ev.swapBuffers, Ev.capture] ++
          (if persist then [Ev.waitKey] else []) ∧
      (runLoop persist delay fuel ⟨0, false, false⟩).2.count Ev.capture = 1) ∧
    (∀ (persist : Bool) (delay : Int) (fuel : Nat), delay ≤ 0 →
      (runLoop persist delay fuel ⟨0, false, false⟩).2.count Ev.capture = 0) := by
  constructor
  · intro persist delay k fuel hk h1 hf
    have h := runLoopCaptureTrace persist delay k h1 fuel ⟨0, false, false⟩ hf
      rfl rfl (by simpa using hk)
    rw [h]
    refine ⟨rfl, ?_⟩
    rw [List.count_append, List.count_append, framePairsNoCapture]
    cases persist <;> decide
  · intro persist delay fuel hd
    exact runLoopNoCapture persist delay hd fuel _ (by simp)

/-- C1 is false as stated: with delay = 0 the frame counter is
incremented before the comparison, so it never equals 0 and no capture
occurs; here the loop is allowed four iterations, renders four frames
(the very first included) and captures nothing. -/
theorem C1_capture_once_counterexample :
    (runLoop false 0 4 ⟨0, false, false⟩).2.count Ev.capture = 0 ∧
    (runLoop false 0 4 ⟨0, false, false⟩).2.count Ev.render = 4 := by
  decide

theorem C1_capture_once_witness :
    ((runLoop false 3 5 ⟨0, false, false⟩).2 =
      framePairs (3 - 1) ++ [Ev.render, Ev.swapBuffers, Ev.capture] ++
        (if false then [Ev.waitKey] else []) ∧
     (runLoop false 3 5 ⟨0, false, false⟩).2.count Ev.capture = 1) ∧
    (runLoop true (-1) 4 ⟨0, false, false⟩).2.count Ev.capture = 0 :=
  ⟨C1_capture_once.1 false 3 3 5 (by decide) (by decide) (by decide),
   C1_capture_once.2 true (-1) 4 (by decide)⟩

/-- C9: in persist mode, once the capture has occurred the loop waits for
the key-press-driven close signal and terminates with the window closed,
rendering no further frame after the capture; without persist mode the
loop terminates immediately after the capture, its trace ending at the
capture event. -/
theorem C9_persist_after_capture :
    (∀ (delay : Int) (k fuel : Nat), (k : Int) = delay → 1 ≤ k → k ≤ fuel →
      runLoop true delay fuel ⟨0, false, false⟩ =
        (⟨delay, true, true⟩,
         framePairs (k - 1) ++
           [Ev.render, Ev.swapBuffers, Ev.capture, Ev.waitKey])) ∧
    (∀ (delay : Int) (k fuel : Nat), (k : Int) = delay → 1 ≤ k → k ≤ fuel →
      runLoop false delay fuel ⟨0, false, false⟩ =
        (⟨delay, true, false⟩,
         framePairs (k - 1) ++ [Ev.render, Ev.swapBuffers, Ev.capture])) := by
  constructor
  · intro delay k fuel hk h1 hf
    have h := runLoopCaptureTrace true delay k h1 fuel ⟨0, false, false⟩ hf
      rfl rfl (by simpa using hk)
    rw [h]
    simp
  · intro delay k fuel hk h1 hf
    have h := runLoopCaptureTrace false delay k h1 fuel ⟨0, false, false⟩ hf
      rfl rfl (by simpa using hk)
    rw [h]
    simp

theorem C9_persist_after_capture_witness :
    runLoop true 2 6 ⟨0, false, false⟩ =
      (⟨2, true, true⟩,
       framePairs (2 - 1) ++
         [Ev.render, Ev.swapBuffers, Ev.capture, Ev.waitKey]) ∧
    runLoop false 2 6 ⟨0, false, false⟩ =
      (⟨2, true, false⟩,
       framePairs (2 - 1) ++ [Ev.render, Ev.swapBuffers, Ev.capture]) :=
  ⟨C9_persist_after_capture.1 2 2 6 (by decide) (by decide) (by decide),
   C9_persist_after_capture.2 2 2 6 (by decide) (by decide) (by decide)⟩


/-- Unfolding lemmas for the argument scanner, one per branch class. -/
theorem setParamsLoopExitCompile (params : Params) (arg : String)
    (rest : List String) (h : classifyArg arg = .optExitCompile) :
    setParamsLoop params (arg :: rest) =
      setParamsLoop { params with exitCompile := true } rest := by
  rcases rest with _ | ⟨b, _ | ⟨c, t⟩⟩
  · rw [setParamsLoop.eq_2, h]
  · rw [setParamsLoop.eq_3, h]
  · rw [setParamsLoop.eq_4, h]

theorem setParamsLoopExitLinking (params : Params) (arg : String)
    (rest : List String) (h : classifyArg arg = .optExitLinking) :
    setParamsLoop params (arg :: rest) =
      setParamsLoop { params with exitLinking := true } rest := by
  rcases rest with _ | ⟨b, _ | ⟨c, t⟩⟩
  · rw [setParamsLoop.eq_2, h]
  · rw [setParamsLoop.eq_3, h]
  · rw [setParamsLoop.eq_4, h]

theorem setParamsLoopPersistFlag (params : Params) (arg : String)
    (rest : List String) (h : classifyArg arg = .optPersist) :
    setParamsLoop params (arg :: rest) =
      setParamsLoop { params with persist := true } rest := by
  rcases rest with _ | ⟨b, _ | ⟨c, t⟩⟩
  · rw [setParamsLoop.eq_2, h]
  · rw [setParamsLoop.eq_3, h]
  · rw [setParamsLoop.eq_4, h]

theorem setParamsLoopUnknown (params : Params) (arg : String)
    (rest : List String) (h : classifyArg arg = .optUnknown) :
    setParamsLoop params (arg :: rest) =
      .error ⟨true, 1, .invalidOption arg⟩ := by
  rcases rest with _ | ⟨b, _ | ⟨c, t⟩⟩
  · rw [setParamsLoop.eq_2, h]
  · rw [setParamsLoop.eq_3, h]
  · rw [setParamsLoop.eq_4, h]

theorem setParamsLoopPositional (params : Params) (arg : String)
    (rest : List String) (h : classifyArg arg = .positional) :
    setParamsLoop params (arg :: rest) =
      if params.fragFilename = "" then
        setParamsLoop { params with fragFilename := arg } rest
      else .error ⟨true, 1, .extraArg arg params.fragFilename⟩ := by
  rcases rest with _ | ⟨b, _ | ⟨c, t⟩⟩
  · rw [setParamsLoop.eq_2, h]
  · rw [setParamsLoop.eq_3, h]
  · rw [setParamsLoop.eq_4, h]

theorem setParamsLoopDelayNil (params : Params) (arg : String)
    (h : classifyArg arg = .optDelay) :
    setParamsLoop params [arg] = .error ⟨true, 1, .missingValue "--delay"⟩ := by
  rw [setParamsLoop.eq_2, h]

theorem setParamsLoopDelayCons (params : Params) (arg v : String)
    (rest : List String) (h : classifyArg arg = .optDelay) :
    setParamsLoop params (arg :: v :: rest) =
      setParamsLoop { params with delay := atoi v } rest := by
  rcases rest with _ | ⟨c, t⟩
  · rw [setParamsLoop.eq_3, h]
  · rw [setParamsLoop.eq_4, h]

theorem setParamsLoopOutputNil (params : Params) (arg : String)
    (h : classifyArg arg = .optOutput) :
    setParamsLoop params [arg] = .error ⟨true, 1, .missingValue "--output"⟩ := by
  rw [setParamsLoop.eq_2, h]

theorem setParamsLoopOutputCons (params : Params) (arg v : String)
    (rest : List String) (h : classifyArg arg = .optOutput) :
    setParamsLoop params (arg :: v :: rest) =
      setParamsLoop { params with output := v } rest := by
  rcases rest with _ | ⟨c, t⟩
  · rw [setParamsLoop.eq_3, h]
  · rw [setParamsLoop.eq_4, h]

theorem setParamsLoopVertexNil (params : Params) (arg : String)
    (h : classifyArg arg = .optVertex) :
    setParamsLoop params [arg] = .error ⟨true, 1, .missingValue "--vertex"⟩ := by
  rw [setParamsLoop.eq_2, h]

theorem setParamsLoopVertexCons (params : Params) (arg v : String)
    (rest : List String) (h : classifyArg arg = .optVertex) :
    setParamsLoop params (arg :: v :: rest) =
      setParamsLoop { params with vertFilename := v } rest := by
  rcases rest with _ | ⟨c, t⟩
  · rw [setParamsLoop.eq_3, h]
  · rw [setParamsLoop.eq_4, h]

theorem setParamsLoopDumpBinNil (params : Params) (arg : String)
    (h : classifyArg arg = .optDumpBin) :
    setParamsLoop params [arg] =
      .error ⟨true, 1, .missingValue "--dump_bin"⟩ := by
  rw [setParamsLoop.eq_2, h]

theorem setParamsLoopDumpBinCons (params : Params) (arg v : String)
    (rest : List String) (h : classifyArg arg = .optDumpBin) :
    setParamsLoop params (arg :: v :: rest) =
      setParamsLoop { params with binOut := v } rest := by
  rcases rest with _ | ⟨c, t⟩
  · rw [setParamsLoop.eq_3, h]
  · rw [setParamsLoop.eq_4, h]

theorem setParamsLoopResolutionNil (params : Params) (arg : String)
    (h : classifyArg arg = .optResolution) :
    setParamsLoop params [arg] =
      .error ⟨true, 1, .missingValue "--resolution"⟩ := by
  rw [setParamsLoop.eq_2, h]

theorem setParamsLoopResolutionOne (params : Params) (arg v1 : String)
    (h : classifyArg arg = .optResolution) :
    setParamsLoop params [arg, v1] =
      .error ⟨true, 1, .missingValue "--resolution"⟩ := by
  rw [setParamsLoop.eq_3, h]

theorem setParamsLoopResolutionCons (params : Params) (arg v1 v2 : String)
    (rest : List String) (h : classifyArg arg = .optResolution) :
    setParamsLoop params (arg :: v1 :: v2 :: rest) =
      setParamsLoop { params with width := atoi v1, height := atoi v2 } rest := by
  rw [setParamsLoop.eq_4, h]

/-- Unfolding lemmas for the positional-argument scan, same branches. -/
theorem positionalArgsExitCompile (arg : String) (rest : List String)
    (h : classifyArg arg = .optExitCompile) :
    positionalArgs (arg :: rest) = positionalArgs rest := by
  rcases rest with _ | ⟨b, _ | ⟨c, t⟩⟩
  · rw [positionalArgs.eq_2, h]
  · rw [positionalArgs.eq_3, h]
  · rw [positionalArgs.eq_4, h]

theorem positionalArgsExitLinking (arg : String) (rest : List String)
    (h : classifyArg arg = .optExitLinking) :
    positionalArgs (arg :: rest) = positionalArgs rest := by
  rcases rest with _ | ⟨b, _ | ⟨c, t⟩⟩
  · rw [positionalArgs.eq_2, h]
  · rw [positionalArgs.eq_3, h]
  · rw [positionalArgs.eq_4, h]

theorem positionalArgsPersistFlag (arg : String) (rest : List String)
    (h : classifyArg arg = .optPersist) :
    positionalArgs (arg :: rest) = positionalArgs rest := by
  rcases rest with _ | ⟨b, _ | ⟨c, t⟩⟩
  · rw [positionalArgs.eq_2, h]
  · rw [positionalArgs.eq_3, h]
  · rw [positionalArgs.eq_4, h]

theorem positionalArgsUnknown (arg : String) (rest : List String)
    (h : classifyArg arg = .optUnknown) :
    positionalArgs (arg :: rest) = positionalArgs rest := by
  rcases rest with _ | ⟨b, _ | ⟨c, t⟩⟩
  · rw [positionalArgs.eq_2, h]
  · rw [positionalArgs.eq_3, h]
  · rw [positionalArgs.eq_4, h]

theorem positionalArgsPositional (arg : String) (rest : List String)
    (h : classifyArg arg = .positional) :
    positionalArgs (arg :: rest) = arg :: positionalArgs rest := by
  rcases rest with _ | ⟨b, _ | ⟨c, t⟩⟩
  · rw [positionalArgs.eq_2, h]
  · rw [positionalArgs.eq_3, h]
  · rw [positionalArgs.eq_4, h]

theorem positionalArgsDelayNil (arg : String)
    (h : classifyArg arg = .optDelay) : positionalArgs [arg] = [] := by
  rw [positionalArgs.eq_2, h]

theorem positionalArgsDelayCons (arg v : String) (rest : List String)
    (h : classifyArg arg = .optDelay) :
    positionalArgs (arg :: v :: rest) = positionalArgs rest := by
  rcases rest with _ | ⟨c, t⟩
  · rw [positionalArgs.eq_3, h]
  · rw [positionalArgs.eq_4, h]

theorem positionalArgsOutputCons (arg v : String) (rest : List String)
    (h : classifyArg arg = .optOutput) :
    positionalArgs (arg :: v :: rest) = positionalArgs rest := by
  rcases rest with _ | ⟨c, t⟩
  · rw [positionalArgs.eq_3, h]
  · rw [positionalArgs.eq_4, h]

theorem positionalArgsVertexCons (arg v : String) (rest : List String)
    (h : classifyArg arg = .optVertex) :
    positionalArgs (arg :: v :: rest) = positionalArgs rest := by
  rcases rest with _ | ⟨c, t⟩
  · rw [positionalArgs.eq_3, h]
  · rw [positionalArgs.eq_4, h]

theorem positionalArgsDumpBinCons (arg v : String) (rest : List String)
    (h : classifyArg arg = .optDumpBin) :
    positionalArgs (arg :: v :: rest) = positionalArgs rest := by
  rcases rest with _ | ⟨c, t⟩
  · rw [positionalArgs.eq_3, h]
  · rw [positionalArgs.eq_4, h]

theorem positionalArgsResolutionCons (arg v1 v2 : String) (rest : List String)
    (h : classifyArg arg = .optResolution) :
    positionalArgs (arg :: v1 :: v2 :: rest) = positionalArgs rest := by
  rw [positionalArgs.eq_4, h]

/-- If the command line still holds at least two nonempty positional
arguments (one when a fragment path is already accepted), the scan cannot
succeed: it ends in some crash, which printed the usage text and exits
with the generic error code. -/
theorem setParamsLoopErrAux :
    ∀ (n : Nat) (params : Params) (args : List String), args.length ≤ n →
      (if params.fragFilename = "" then 2 else 1) ≤
        ((positionalArgs args).filter (fun x => x != "")).length →
      ∃ e, setParamsLoop params args = .error e ∧
        e.usageShown = true ∧ e.exitCode = 1 := by
  intro n
  induction n with
  | zero =>
    intro params args hlen hb
    cases args with
    | nil =>
      rw [positionalArgs.eq_1] at hb
      split at hb <;> simp at hb
    | cons arg rest => simp at hlen
  | succ n ih =>
    intro params args hlen hb
    cases args with
    | nil =>
      rw [positionalArgs.eq_1] at hb
      split at hb <;> simp at hb
    | cons arg rest =>
      have hlen2 : rest.length ≤ n := by simp at hlen; omega
      cases hc : classifyArg arg with
      | optExitCompile =>
        rw [setParamsLoopExitCompile _ _ _ hc]
        rw [positionalArgsExitCompile _ _ hc] at hb
        exact ih _ rest hlen2 hb
      | optExitLinking =>
        rw [setParamsLoopExitLinking _ _ _ hc]
        rw [positionalArgsExitLinking _ _ hc] at hb
        exact ih _ rest hlen2 hb
      | optPersist =>
        rw [setParamsLoopPersistFlag _ _ _ hc]
        rw [positionalArgsPersistFlag _ _ hc] at hb
        exact ih _ rest hlen2 hb
      | optUnknown =>
        exact ⟨_, setParamsLoopUnknown _ _ _ hc, rfl, rfl⟩
      | optDelay =>
        cases rest with
        | nil => exact ⟨_, setParamsLoopDelayNil _ _ hc, rfl, rfl⟩
        | cons v rest2 =>
          rw [setParamsLoopDelayCons _ _ _ _ hc]
          rw [positionalArgsDelayCons _ _ _ hc] at hb
          exact ih _ rest2 (by simp at hlen; omega) hb
      | optOutput =>
        cases rest with
        | nil => exact ⟨_, setParamsLoopOutputNil _ _ hc, rfl, rfl⟩
        | cons v rest2 =>
          rw [setParamsLoopOutputCons _ _ _ _ hc]
          rw [positionalArgsOutputCons _ _ _ hc] at hb
          exact ih _ rest2 (by simp at hlen; omega) hb
      | optVertex =>
        cases rest with
        | nil => exact ⟨_, setParamsLoopVertexNil _ _ hc, rfl, rfl⟩
        | cons v rest2 =>
          rw [setParamsLoopVertexCons _ _ _ _ hc]
          rw [positionalArgsVertexCons _ _ _ hc] at hb
          exact ih _ rest2 (by simp at hlen; omega) hb
      | optDumpBin =>
        cases rest with
        | nil => exact ⟨_, setParamsLoopDumpBinNil _ _ hc, rfl, rfl⟩
        | cons v rest2 =>
          rw [setParamsLoopDumpBinCons _ _ _ _ hc]
          rw [positionalArgsDumpBinCons _ _ _ hc] at hb
          exact ih _ rest2 (by simp at hlen; omega) hb
      | optResolution =>
        rcases rest with _ | ⟨v1, _ | ⟨v2, rest2⟩⟩
        · exact ⟨_, setParamsLoopResolutionNil _ _ hc, rfl, rfl⟩
        · exact ⟨_, setParamsLoopResolutionOne _ _ _ hc, rfl, rfl⟩
        · rw [setParamsLoopResolutionCons _ _ _ _ _ hc]
          rw [positionalArgsResolutionCons _ _ _ _ hc] at hb
          exact ih _ rest2 (by simp at hlen; omega) hb
      | positional =>
        rw [setParamsLoopPositional _ _ _ hc]
        rw [positionalArgsPositional _ _ hc] at hb
        by_cases hf : params.fragFilename = ""
        · rw [if_pos hf]
          rw [if_pos hf] at hb
          by_cases hv : arg = ""
          · subst hv
            rw [List.filter_cons_of_neg (by simp)] at hb
            exact ih _ rest hlen2 (by simpa using hb)
          · rw [List.filter_cons_of_pos (by simp [hv])] at hb
            refine ih _ rest hlen2 ?_
            have h1 : 1 ≤
                ((positionalArgs rest).filter (fun x => x != "")).length := by
              simp only [List.length_cons] at hb
              omega
            simpa [hv] using h1
        · rw [if_neg hf]
          exact ⟨_, rfl, rfl, rfl⟩

/-- When the scan crashes with the extra-argument error, the fragment
path accepted at that point is the path already held on entry (when one
was held), and otherwise the first nonempty positional argument of the
remaining command line. -/
theorem setParamsLoopExtraAcc :
    ∀ (n : Nat) (params : Params) (args : List String), args.length ≤ n →
      ∀ (a acc : String),
        setParamsLoop params args = .error ⟨true, 1, .extraArg a acc⟩ →
        (¬ params.fragFilename = "" → acc = params.fragFilename) ∧
        (params.fragFilename = "" →
          acc = (((positionalArgs args).filter (fun x => x != "")).headD "")) := by
  intro n
  induction n with
  | zero =>
    intro params args hlen a acc heq
    cases args with
    | nil =>
      rw [setParamsLoop.eq_1] at heq
      split at heq <;> simp at heq
    | cons arg rest => simp at hlen
  | succ n ih =>
    intro params args hlen a acc heq
    cases args with
    | nil =>
      rw [setParamsLoop.eq_1] at heq
      split at heq <;> simp at heq
    | cons arg rest =>
      have hlen2 : rest.length ≤ n := by simp at hlen; omega
      cases hc : classifyArg arg with
      | optExitCompile =>
        rw [setParamsLoopExitCompile _ _ _ hc] at heq
        rw [positionalArgsExitCompile _ _ hc]
        exact ih { params with exitCompile := true } rest hlen2 a acc heq
      | optExitLinking =>
        rw [setParamsLoopExitLinking _ _ _ hc] at heq
        rw [positionalArgsExitLinking _ _ hc]
        exact ih { params with exitLinking := true } rest hlen2 a acc heq
      | optPersist =>
        rw [setParamsLoopPersistFlag _ _ _ hc] at heq
        rw [positionalArgsPersistFlag _ _ hc]
        exact ih { params with persist := true } rest hlen2 a acc heq
      | optUnknown =>
        rw [setParamsLoopUnknown _ _ _ hc] at heq
        simp at heq
      | optDelay =>
        cases rest with
        | nil =>
          rw [setParamsLoopDelayNil _ _ hc] at heq
          simp at heq
        | cons v rest2 =>
          rw [setParamsLoopDelayCons _ _ _ _ hc] at heq
          rw [positionalArgsDelayCons _ _ _ hc]
          exact ih { params with delay := atoi v } rest2 (by simp at hlen; omega) a acc heq
      | optOutput =>
        cases rest with
        | nil =>
          rw [setParamsLoopOutputNil _ _ hc] at heq
          simp at heq
        | cons v rest2 =>
          rw [setParamsLoopOutputCons _ _ _ _ hc] at heq
          rw [positionalArgsOutputCons _ _ _ hc]
          exact ih { params with output := v } rest2 (by simp at hlen; omega) a acc heq
      | optVertex =>
        cases rest with
        | nil =>
          rw [setParamsLoopVertexNil _ _ hc] at heq
          simp at heq
        | cons v rest2 =>
          rw [setParamsLoopVertexCons _ _ _ _ hc] at heq
          rw [positionalArgsVertexCons _ _ _ hc]
          exact ih { params with vertFilename := v } rest2 (by simp at hlen; omega) a acc heq
      | optDumpBin =>
        cases rest with
        | nil =>
          rw [setParamsLoopDumpBinNil _ _ hc] at heq
          simp at heq
        | cons v rest2 =>
          rw [setParamsLoopDumpBinCons _ _ _ _ hc] at heq
          rw [positionalArgsDumpBinCons _ _ _ hc]
          exact ih { params with binOut := v } rest2 (by simp at hlen; omega) a acc heq
      | optResolution =>
        rcases rest with _ | ⟨v1, _ | ⟨v2, rest2⟩⟩
        · rw [setParamsLoopResolutionNil _ _ hc] at heq
          simp at heq
        · rw [setParamsLoopResolutionOne _ _ _ hc] at heq
          simp at heq
        · rw [setParamsLoopResolutionCons _ _ _ _ _ hc] at heq
          rw [positionalArgsResolutionCons _ _ _ _ hc]
          exact ih { params with width := atoi v1, height := atoi v2 } rest2 (by simp at hlen; omega) a acc heq
      | positional =>
        rw [setParamsLoopPositional _ _ _ hc] at heq
        rw [positionalArgsPositional _ _ hc]
        by_cases hf : params.fragFilename = ""
        · rw [if_pos hf] at heq
          have h2 := ih { params with fragFilename := arg } rest hlen2 a acc heq
          constructor
          · intro hnf
            exact absurd hf hnf
          · intro _
            by_cases hv : arg = ""
            · subst hv
              rw [List.filter_cons_of_neg (by simp)]
              exact h2.2 (by simp)
            · rw [List.filter_cons_of_pos (by simp [hv])]
              have hacc := h2.1 (by simp [hv])
              simpa using hacc
        · rw [if_neg hf] at heq
          simp only [Except.error.injEq, CrashInfo.mk.injEq,
            CrashKind.extraArg.injEq] at heq
          obtain ⟨-, -, -, hacc⟩ := heq
          exact ⟨fun _ => hacc.symm, fun hf2 => absurd hf2 hf⟩

/-- C10 is false as stated: the command line with the two positional
(non-flag) arguments `""` and `"x.frag"` parses successfully instead of
terminating with the usage text and the generic error code, because the
scanner stores the empty first positional into the initially empty
fragment-path field, which it cannot distinguish from "no shader seen
yet". -/
theorem C10_extra_positionals_counterexample :
    positionalArgs ["", "x.frag"] = ["", "x.frag"] ∧
    setParams ["", "x.frag"] =
      .ok { defaultParams with fragFilename := "x.frag" } := by
  constructor
  · decide
  · decide

/-- C10 (amended): for every command line containing more than one
nonempty positional (non-flag) argument, argument parsing terminates the
process with the generic error code 1 after printing the usage text, and
whenever the crash is the extra-argument crash, the fragment shader path
accepted at that point is the first nonempty positional argument.  (An
empty positional argument is stored into the initially empty
fragment-path field without visible effect, so only nonempty positionals
count.) -/
theorem C10_extra_positionals :
    ∀ args : List String,
      2 ≤ ((positionalArgs args).filter (fun x => x != "")).length →
      (∃ e, setParams args = .error e ∧
        e.usageShown = true ∧ e.exitCode = 1) ∧
      (∀ a acc, setParams args = .error ⟨true, 1, .extraArg a acc⟩ →
        acc = (((positionalArgs args).filter (fun x => x != "")).headD "")) := by
  intro args hb
  constructor
  · exact setParamsLoopErrAux args.length defaultParams args le_rfl
      (by simpa using hb)
  · intro a acc heq
    exact (setParamsLoopExtraAcc args.length defaultParams args le_rfl
      a acc heq).2 rfl

theorem C10_extra_positionals_witness :
    (2 ≤ ((positionalArgs ["a.frag", "b.frag"]).filter
      (fun x => x != "")).length) ∧
    (∃ e, setParams ["a.frag", "b.frag"] = .error e ∧
      e.usageShown = true ∧ e.exitCode = 1) ∧
    (∀ a acc, setParams ["a.frag", "b.frag"] =
        .error ⟨true, 1, .extraArg a acc⟩ →
      acc = (((positionalArgs ["a.frag", "b.frag"]).filter
        (fun x => x != "")).headD "")) :=
  ⟨by decide, (C10_extra_positionals _ (by decide)).1,
   (C10_extra_positionals _ (by decide)).2⟩
